import Mathlib

/-!
The HTTP adapter of the goddd booking and handling services.

A shallow embedding of `booking/transport.go` and `handling/endpoint.go`:
the request decoders, the response and error encoders, the route table built
by `MakeHandler`, and the register-incident endpoint.

Conventions of the embedding.
* A Go `error` is `GoError := Option ErrVal`; `none` is the nil interface.
* Go's `==` on two non-nil error values is equality of `ErrVal`.
* A Go function returning `(interface{}, error)` that returns either
  `(nil, err)` or `(v, nil)` is an `Except ErrVal _`: `.error err` is
  `(nil, err)` and `.ok v` is `(v, nil)`.
* A function that can panic returns an `Option`; `none` is the panic.
* `http.ResponseWriter` is an in-memory record of what the handler did to it.
-/

namespace Goddd

/-! ## Error values -/

/-- Identity of an error value, which is what Go's `==` compares.
`pkgVar name` is the pointer returned by the `errors.New` call that initialises
the package-level variable `name`; each such call returns a pointer of its own.
`foreign n` is any other value: one produced by a library such as
`encoding/json`, or by a service implementation. -/
inductive ErrIdent where
  | pkgVar (name : String)
  | foreign (n : Nat)
deriving DecidableEq, Repr

/-- A non-nil Go error value: its identity and the text its `Error()` returns. -/
structure ErrVal where
  ident : ErrIdent
  msg : String
deriving DecidableEq, Repr

/-- The Go interface type `error`; `none` is nil. -/
abbrev GoError := Option ErrVal

/-- The call `errors.New(text)` initialising the package-level variable `name`. -/
def errorsNew (name : String) (text : String) : ErrVal :=
  ⟨ErrIdent.pkgVar name, text⟩

/-- The variable `errBadRoute` of `booking/transport.go`. -/
def errBadRoute : ErrVal := errorsNew "booking.errBadRoute" "bad route"

/-- Modelled from the spec: `shipping.ErrUnknownCargo` is declared outside the
given sources. It is the recognised "unknown entity" error kind, compared by
identity, and its text is the `unknown cargo` of the spec's concrete scenario. -/
def ErrUnknownCargo : ErrVal := errorsNew "shipping.ErrUnknownCargo" "unknown cargo"

/-- Modelled from the spec: `ErrInvalidArgument` of package booking is declared
outside the given sources. It is the recognised "invalid argument" error kind,
compared by identity; the spec does not fix its text and nothing below depends
on it. -/
def ErrInvalidArgument : ErrVal := errorsNew "booking.ErrInvalidArgument" "invalid argument"

/-- An error returned by `encoding/json`'s `Decoder.Decode` (a syntax error, a
type error, `io.EOF`, ...). Such a value is made outside this repository. -/
structure JsonErr where
  n : Nat
  msg : String
deriving DecidableEq, Repr

/-- A JSON decode error as a Go `error` value, returned as it is. -/
def JsonErr.toErr (e : JsonErr) : ErrVal := ⟨ErrIdent.foreign e.n, e.msg⟩

/-! ## The response writer -/

/-- What a handler has done to an `http.ResponseWriter`.
`header` is the `Header()` map, `calls` the codes passed to `WriteHeader` in
call order, `status` the status line sent (the first `WriteHeader`, or the 200
implied by a first `Write`), `body` the bytes written. -/
structure ResponseWriter where
  header : List (String × String)
  calls : List Nat
  status : Option Nat
  body : String
deriving DecidableEq, Repr

/-- A writer nothing has been written to. -/
def ResponseWriter.fresh : ResponseWriter := ⟨[], [], none, ""⟩

/-- The call `w.Header().Set(k, v)`: replaces whatever `k` was set to. -/
def ResponseWriter.setHeader (w : ResponseWriter) (k v : String) : ResponseWriter :=
  { w with header := (k, v) :: w.header.filter (fun kv => kv.1 ≠ k) }

/-- The call `w.Header().Get(k)`. -/
def ResponseWriter.getHeader (w : ResponseWriter) (k : String) : Option String :=
  w.header.lookup k

/-- The call `w.WriteHeader(code)`: only the first status is sent. -/
def ResponseWriter.WriteHeader (w : ResponseWriter) (code : Nat) : ResponseWriter :=
  { w with calls := w.calls ++ [code],
           status := match w.status with
             | none => some code
             | some c => some c }

/-- The call `w.Write(b)`: a first write without `WriteHeader` sends status 200. -/
def ResponseWriter.Write (w : ResponseWriter) (b : String) : ResponseWriter :=
  { w with status := match w.status with
             | none => some 200
             | some c => some c,
           body := w.body ++ b }

def StatusNotFound : Nat := 404
def StatusBadRequest : Nat := 400
def StatusInternalServerError : Nat := 500

/-! ## JSON output of `encoding/json` -/

/-- One character of a string as `encoding/json`'s `Encoder` writes it (HTML
escaping on, which is the encoder's default). Backspace and form feed are
written in their short form, as current Go releases do; older releases write
them as `u0008` and `u000c` escapes. A Lean string holds no invalid UTF-8, so
the replacement of invalid bytes has no counterpart here. -/
def jsonEscapeChar (c : Char) : List Char :=
  if c = Char.ofNat 34 then [Char.ofNat 92, Char.ofNat 34]
  else if c = Char.ofNat 92 then [Char.ofNat 92, Char.ofNat 92]
  else if c = Char.ofNat 8 then [Char.ofNat 92, 'b']
  else if c = Char.ofNat 12 then [Char.ofNat 92, 'f']
  else if c = Char.ofNat 10 then [Char.ofNat 92, 'n']
  else if c = Char.ofNat 13 then [Char.ofNat 92, 'r']
  else if c = Char.ofNat 9 then [Char.ofNat 92, 't']
  else if c.toNat < 32 ∨ c = '<' ∨ c = '>' ∨ c = '&' then
    [Char.ofNat 92, 'u', '0', '0', Nat.digitChar (c.toNat / 16), Nat.digitChar (c.toNat % 16)]
  else if c.toNat = 8232 then [Char.ofNat 92, 'u', '2', '0', '2', '8']
  else if c.toNat = 8233 then [Char.ofNat 92, 'u', '2', '0', '2', '9']
  else [c]

/-- A Go string as a JSON string literal. -/
def jsonString (s : String) : String :=
  String.mk (Char.ofNat 34 :: (s.data.flatMap jsonEscapeChar ++ [Char.ofNat 34]))

/-- The bytes `json.NewEncoder(w).Encode(map[string]interface{}{"error": m})`
writes: the object on one line, followed by a newline. -/
def encodeErrorMap (m : String) : String :=
  "\x7b\"error\":" ++ jsonString m ++ "\x7d\n"

/-! ## `encodeError` -/

/-- The function `encodeError` of `booking/transport.go`. `none` is the panic
of the method call `err.Error()` on a nil interface. -/
def encodeError (err : GoError) (w : ResponseWriter) : Option ResponseWriter :=
  let w := w.setHeader "Content-Type" "application/json; charset=utf-8"
  let w :=
    if err = some ErrUnknownCargo then w.WriteHeader StatusNotFound
    else if err = some ErrInvalidArgument then w.WriteHeader StatusBadRequest
    else w.WriteHeader StatusInternalServerError
  match err with
  | none => none
  | some e => some (w.Write (encodeErrorMap e.msg))

/-! ## Domain value types and commands -/

/-- Modelled from the spec: `shipping.TrackingID` is declared outside the given
sources; an opaque tracking-id type built directly from a string. -/
structure TrackingID where
  val : String
deriving DecidableEq, Repr

/-- Modelled from the spec: `shipping.UNLocode` is declared outside the given
sources; an opaque location-code type built directly from a string. -/
structure UNLocode where
  val : String
deriving DecidableEq, Repr

/-- Modelled from the spec: `shipping.VoyageNumber` is declared outside the
given sources; an opaque value the adapter only passes on. -/
structure VoyageNumber where
  val : String
deriving DecidableEq, Repr

/-- Modelled from the spec: `shipping.HandlingEventType` is declared outside
the given sources; an opaque value the adapter only passes on. -/
structure HandlingEventType where
  val : Int
deriving DecidableEq, Repr

/-- Modelled from the spec: the command `bookCargoRequest` is declared outside
the given sources; its fields are those the decoder's literal sets. `τ` is
`time.Time`. -/
structure bookCargoRequest (τ : Type) where
  Origin : UNLocode
  Destination : UNLocode
  ArrivalDeadline : τ
deriving DecidableEq, Repr

/-- Modelled from the spec: the command `loadCargoRequest` is declared outside
the given sources; its field is the one the decoder's literal sets. -/
structure loadCargoRequest where
  ID : TrackingID
deriving DecidableEq, Repr

/-- Modelled from the spec: the command `requestRoutesRequest` is declared
outside the given sources; its field is the one the decoder's literal sets. -/
structure requestRoutesRequest where
  ID : TrackingID
deriving DecidableEq, Repr

/-- Modelled from the spec: the command `assignToRouteRequest` is declared
outside the given sources; its fields are those the decoder's literal sets.
`ι` is `shipping.Itinerary`. -/
structure assignToRouteRequest (ι : Type) where
  ID : TrackingID
  Itinerary : ι
deriving DecidableEq, Repr

/-- Modelled from the spec: the command `changeDestinationRequest` is declared
outside the given sources; its fields are those the decoder's literal sets. -/
structure changeDestinationRequest where
  ID : TrackingID
  Destination : UNLocode
deriving DecidableEq, Repr

/-- Modelled from the spec: the empty command `listCargosRequest`, declared
outside the given sources. -/
structure listCargosRequest where
deriving DecidableEq, Repr

/-- Modelled from the spec: the empty command `listLocationsRequest`, declared
outside the given sources. -/
structure listLocationsRequest where
deriving DecidableEq, Repr

/-! ## Requests and decoders -/

/-- The parts of an `*http.Request` the adapter reads: method and path (the
router), `mux.Vars(r)` (the path variables the router bound) and the body. -/
structure Request where
  Method : String
  Path : String
  vars : List (String × String)
  Body : String
deriving DecidableEq, Repr

/-- The anonymous struct `body` of `decodeBookCargoRequest`. -/
structure bookCargoBody (τ : Type) where
  Origin : String
  Destination : String
  ArrivalDeadline : τ
deriving DecidableEq, Repr

/-- The anonymous struct `body` of `decodeChangeDestinationRequest`. -/
structure changeDestinationBody where
  Destination : String
deriving DecidableEq, Repr

/-- The call `json.NewDecoder(r.Body).Decode(&v)` for a target of type `α`:
from the body's bytes to the decoded value or the decoder's error. -/
abbrev JsonDecode (α : Type) := String → Except JsonErr α

/-- The function `decodeBookCargoRequest`. -/
def decodeBookCargoRequest {τ : Type} (jsonDecode : JsonDecode (bookCargoBody τ))
    (r : Request) : Except ErrVal (bookCargoRequest τ) :=
  match jsonDecode r.Body with
  | .error err => .error err.toErr
  | .ok body =>
    .ok { Origin := UNLocode.mk body.Origin,
          Destination := UNLocode.mk body.Destination,
          ArrivalDeadline := body.ArrivalDeadline }

/-- The function `decodeLoadCargoRequest`. -/
def decodeLoadCargoRequest (r : Request) : Except ErrVal loadCargoRequest :=
  let vars := r.vars
  match vars.lookup "id" with
  | none => .error errBadRoute
  | some id => .ok { ID := TrackingID.mk id }

/-- The function `decodeRequestRoutesRequest`. -/
def decodeRequestRoutesRequest (r : Request) : Except ErrVal requestRoutesRequest :=
  let vars := r.vars
  match vars.lookup "id" with
  | none => .error errBadRoute
  | some id => .ok { ID := TrackingID.mk id }

/-- The function `decodeAssignToRouteRequest`. -/
def decodeAssignToRouteRequest {ι : Type} (jsonDecode : JsonDecode ι)
    (r : Request) : Except ErrVal (assignToRouteRequest ι) :=
  let vars := r.vars
  match vars.lookup "id" with
  | none => .error errBadRoute
  | some id =>
    match jsonDecode r.Body with
    | .error err => .error err.toErr
    | .ok itinerary => .ok { ID := TrackingID.mk id, Itinerary := itinerary }

/-- The function `decodeChangeDestinationRequest`. -/
def decodeChangeDestinationRequest (jsonDecode : JsonDecode changeDestinationBody)
    (r : Request) : Except ErrVal changeDestinationRequest :=
  let vars := r.vars
  match vars.lookup "id" with
  | none => .error errBadRoute
  | some id =>
    match jsonDecode r.Body with
    | .error err => .error err.toErr
    | .ok body =>
      .ok { ID := TrackingID.mk id, Destination := UNLocode.mk body.Destination }

/-- The function `decodeListCargosRequest`. -/
def decodeListCargosRequest (_r : Request) : Except ErrVal listCargosRequest :=
  .ok {}

/-- The function `decodeListLocationsRequest`. -/
def decodeListLocationsRequest (_r : Request) : Except ErrVal listLocationsRequest :=
  .ok {}

/-! ## `encodeResponse` -/

/-- A Go value handed to `encodeResponse` as `interface{}`, given by the two
things the encoder asks of it. `errorer` is `some e` when the dynamic type has
the method `error()` of interface `errorer` and that method returns `e`, and
`none` when the type assertion fails. `marshal` is what `encoding/json` makes of
the value: the JSON text, or the error of an unsupported value. -/
structure Response where
  errorer : Option GoError
  marshal : Except ErrVal String

/-- The call `json.NewEncoder(w).Encode(v)`: the JSON text and a newline are
written in one `Write`; a value that cannot be marshalled writes nothing and
the error is returned. -/
def jsonEncode (w : ResponseWriter) (v : Except ErrVal String) : ResponseWriter × GoError :=
  match v with
  | .error e => (w, some e)
  | .ok s => (w.Write (s ++ "\n"), none)

/-- The function `encodeResponse` of `booking/transport.go`: the writer after
the call and the returned error; `none` is a panic. -/
def encodeResponse (w : ResponseWriter) (response : Response) :
    Option (ResponseWriter × GoError) :=
  match response.errorer with
  | some e =>
    if e ≠ none then (encodeError e w).map (fun w1 => (w1, none))
    else
      let w := w.setHeader "Content-Type" "application/json; charset=utf-8"
      some (jsonEncode w response.marshal)
  | none =>
    let w := w.setHeader "Content-Type" "application/json; charset=utf-8"
    some (jsonEncode w response.marshal)

/-! ## The register-incident endpoint of package handling -/

/-- The struct `registerIncidentRequest`; `τ` is `time.Time`. -/
structure registerIncidentRequest (τ : Type) where
  ID : TrackingID
  Location : UNLocode
  Voyage : VoyageNumber
  EventType : HandlingEventType
  CompletionTime : τ
deriving DecidableEq, Repr

/-- The struct `registerIncidentResponse`. -/
structure registerIncidentResponse where
  Err : GoError
deriving DecidableEq, Repr

/-- The method `error()` of `registerIncidentResponse`. -/
def registerIncidentResponse.error (r : registerIncidentResponse) : GoError := r.Err

/-- The JSON text of a `registerIncidentResponse`: its one field carries the tag
`json:"error,omitempty"`, so a nil `Err` is left out; otherwise the key `error`
holds what `marshalErr` makes of the error's dynamic value. -/
def registerIncidentResponse.marshal (marshalErr : ErrVal → Except ErrVal String)
    (r : registerIncidentResponse) : Except ErrVal String :=
  match r.Err with
  | none => .ok "\x7b\x7d"
  | some e =>
    match marshalErr e with
    | .error x => .error x
    | .ok s => .ok ("\x7b\"error\":" ++ s ++ "\x7d")

/-- A `registerIncidentResponse` as the `interface{}` handed to `encodeResponse`
of package booking. The method `error()` is unexported and belongs to package
handling, so the type does not satisfy booking's interface `errorer`: the type
assertion fails whatever `Err` holds. -/
def registerIncidentResponse.toResponse (marshalErr : ErrVal → Except ErrVal String)
    (r : registerIncidentResponse) : Response :=
  { errorer := none, marshal := r.marshal marshalErr }

/-- The method of the handling `Service` interface the endpoint calls. The
interface is declared outside the given sources, so the service is a
parameter: `σ` is whatever state the implementation keeps, and a call returns
its error and the state after the call. -/
structure Service (σ τ : Type) where
  RegisterHandlingEvent :
    τ → TrackingID → VoyageNumber → UNLocode → HandlingEventType → σ → GoError × σ

/-- A value passed to an endpoint as `interface{}`: a `registerIncidentRequest`
or a value of some other type. -/
inductive AnyRequest (τ : Type) where
  | registerIncident (req : registerIncidentRequest τ)
  | other

/-- The endpoint returned by `makeRegisterIncidentEndpoint(hs)`: from the
request and the service's state to the returned pair and the state after the
call. `none` is the panic of the type assertion. -/
def makeRegisterIncidentEndpoint {σ τ : Type} (hs : Service σ τ)
    (request : AnyRequest τ) (s : σ) :
    Option ((registerIncidentResponse × GoError) × σ) :=
  match request with
  | .other => none
  | .registerIncident req =>
    let (err, s1) :=
      hs.RegisterHandlingEvent req.CompletionTime req.ID req.Voyage req.Location req.EventType s
    some ((registerIncidentResponse.mk err, none), s1)

/-- One recorded call of `RegisterHandlingEvent`, arguments in call order. -/
structure Call (τ : Type) where
  completionTime : τ
  id : TrackingID
  voyage : VoyageNumber
  location : UNLocode
  eventType : HandlingEventType
deriving DecidableEq, Repr

/-- A service that appends every call to a log and answers with `answer`. -/
def recordingService {τ : Type} (answer : Call τ → GoError) : Service (List (Call τ)) τ :=
  { RegisterHandlingEvent := fun t id v l e log =>
      (answer ⟨t, id, v, l, e⟩, log ++ [⟨t, id, v, l, e⟩]) }

/-! ## The route table of `MakeHandler` -/

/-- The seven go-kit servers `MakeHandler` builds, one per operation. -/
inductive Op where
  | bookCargo
  | loadCargo
  | requestRoutes
  | assignToRoute
  | changeDestination
  | listCargos
  | listLocations
deriving DecidableEq, Repr

/-- What a route dispatches to: one of the seven servers, or the file server
of the documentation. -/
inductive Handler where
  | kit (op : Op)
  | docs
deriving DecidableEq, Repr

/-- One `r.Handle(tpl, handler).Methods(...)` line: the path template, the
handler and the methods of the route's method matcher (`[]` when the route has
no method matcher, which then accepts every method). -/
structure Route where
  tpl : String
  handler : Handler
  methods : List String
deriving DecidableEq, Repr

/-- The routes `MakeHandler` registers, in registration order. -/
def MakeHandler : List Route :=
  [ ⟨"/booking/v1/cargos", .kit .bookCargo, ["POST"]⟩,
    ⟨"/booking/v1/cargos", .kit .listCargos, ["GET"]⟩,
    ⟨"/booking/v1/cargos/\x7bid\x7d", .kit .loadCargo, ["GET"]⟩,
    ⟨"/booking/v1/cargos/\x7bid\x7d/request_routes", .kit .requestRoutes, ["GET"]⟩,
    ⟨"/booking/v1/cargos/\x7bid\x7d/assign_to_route", .kit .assignToRoute, ["POST"]⟩,
    ⟨"/booking/v1/cargos/\x7bid\x7d/change_destination", .kit .changeDestination, ["POST"]⟩,
    ⟨"/booking/v1/locations", .kit .listLocations, ["GET"]⟩,
    ⟨"/booking/v1/docs", .docs, []⟩ ]

/-- A path or template cut at every slash: `/a/b` is `["", "a", "b"]`. -/
def splitSlash : List Char → List (List Char)
  | [] => [[]]
  | c :: cs =>
    if c = '/' then [] :: splitSlash cs
    else (c :: (splitSlash cs).headD []) :: (splitSlash cs).tail

/-- One segment of a route template: literal text, or a variable `{name}`,
which gorilla/mux compiles to the pattern `[^/]+`. -/
inductive Seg where
  | lit (s : List Char)
  | var (name : String)
deriving DecidableEq, Repr

/-- A template segment read: `{name}` is a variable, anything else is literal. -/
def parseSeg (s : List Char) : Seg :=
  match s with
  | [] => .lit []
  | c :: rest =>
    if c = Char.ofNat 123 ∧ rest.getLast? = some (Char.ofNat 125) then
      .var (String.mk rest.dropLast)
    else .lit s

/-- A route template as its segments. -/
def parseTemplate (tpl : String) : List Seg :=
  (splitSlash tpl.data).map parseSeg

/-- The template's regular expression run on a path, both cut at the slashes:
every literal segment must be equal, every variable takes exactly one
non-empty segment, and nothing may be left over on either side. The result is
the variables bound. Every variable of the templates above fills a whole
segment, for which this is what the anchored expression with `[^/]+` does. -/
def matchSegs : List Seg → List (List Char) → Option (List (String × String))
  | [], [] => some []
  | .lit s :: ts, p :: ps => if s = p then matchSegs ts ps else none
  | .var name :: ts, p :: ps =>
    if p ≠ [] then (matchSegs ts ps).map (fun vs => (name, String.mk p) :: vs) else none
  | _, _ => none

/-- Does the route match the request's method and path, and with which path
variables: the method matcher is an exact comparison and the path is matched
against the template. -/
def Route.Match (rt : Route) (method path : String) : Option (List (String × String)) :=
  if rt.methods = [] ∨ method ∈ rt.methods then
    matchSegs (parseTemplate rt.tpl) (splitSlash path.data)
  else none

/-- The router's dispatch: the first registered route that matches, with the
path variables it binds. -/
def dispatch (routes : List Route) (method path : String) :
    Option (Handler × List (String × String)) :=
  routes.findSome? (fun rt => (rt.Match method path).map (fun vs => (rt.handler, vs)))

/-- Can two template segments accept the same path segment: two literals only
when they are equal, a variable with anything. -/
def Seg.agree : Seg → Seg → Bool
  | .lit a, .lit b => decide (a = b)
  | _, _ => true

/-- Can two templates accept the same path: equally many segments, agreeing
one by one. -/
def segsCompat : List Seg → List Seg → Bool
  | [], [] => true
  | a :: as, b :: bs => a.agree b && segsCompat as bs
  | _, _ => false

/-- Can two method matchers accept the same method. -/
def methodsCompat (m1 m2 : List String) : Bool :=
  decide (m1 = []) || decide (m2 = []) || m1.any (fun m => m2.contains m)

/-- Can two routes match the same request. -/
def Route.overlaps (r1 r2 : Route) : Bool :=
  methodsCompat r1.methods r2.methods &&
    segsCompat (parseTemplate r1.tpl) (parseTemplate r2.tpl)

/-! ## The decoder of each operation -/

/-- A decoded command as the `interface{}` a decoder returns. -/
inductive Command (τ ι : Type) where
  | bookCargo (c : bookCargoRequest τ)
  | loadCargo (c : loadCargoRequest)
  | requestRoutes (c : requestRoutesRequest)
  | assignToRoute (c : assignToRouteRequest ι)
  | changeDestination (c : changeDestinationRequest)
  | listCargos (c : listCargosRequest)
  | listLocations (c : listLocationsRequest)

/-- The JSON decoding of the three bodies the booking decoders read. -/
structure JsonDecoders (τ ι : Type) where
  bookCargo : JsonDecode (bookCargoBody τ)
  itinerary : JsonDecode ι
  changeDestination : JsonDecode changeDestinationBody

/-- The decoder `MakeHandler` passes to `kithttp.NewServer` for each operation. -/
def Op.decode {τ ι : Type} (js : JsonDecoders τ ι) (op : Op) (r : Request) :
    Except ErrVal (Command τ ι) :=
  match op with
  | .bookCargo => (decodeBookCargoRequest js.bookCargo r).map Command.bookCargo
  | .loadCargo => (decodeLoadCargoRequest r).map Command.loadCargo
  | .requestRoutes => (decodeRequestRoutesRequest r).map Command.requestRoutes
  | .assignToRoute => (decodeAssignToRouteRequest js.itinerary r).map Command.assignToRoute
  | .changeDestination =>
    (decodeChangeDestinationRequest js.changeDestination r).map Command.changeDestination
  | .listCargos => (decodeListCargosRequest r).map Command.listCargos
  | .listLocations => (decodeListLocationsRequest r).map Command.listLocations

/-! ## Theorems: the error encoder -/

/-- The status code `encodeError` picks for a non-nil error. -/
theorem encodeError_some (e : ErrVal) (w : ResponseWriter) :
    encodeError (some e) w =
      some (((w.setHeader "Content-Type" "application/json; charset=utf-8").WriteHeader
        (if e = ErrUnknownCargo then 404 else if e = ErrInvalidArgument then 400 else 500)).Write
          (encodeErrorMap e.msg)) := by
  by_cases h1 : e = ErrUnknownCargo
  · simp [encodeError, h1, StatusNotFound]
  · by_cases h2 : e = ErrInvalidArgument
    · have hne : ErrInvalidArgument ≠ ErrUnknownCargo := by decide
      simp [encodeError, h2, hne, StatusBadRequest]
    · simp [encodeError, h1, h2, StatusInternalServerError]

/-- The fields of a writer after header, status and one write. -/
theorem writer_after (w : ResponseWriter) (code : Nat) (b : String) :
    (((w.setHeader "Content-Type" "application/json; charset=utf-8").WriteHeader code).Write
        b).calls = w.calls ++ [code] ∧
    (((w.setHeader "Content-Type" "application/json; charset=utf-8").WriteHeader code).Write
        b).getHeader "Content-Type" = some "application/json; charset=utf-8" ∧
    (((w.setHeader "Content-Type" "application/json; charset=utf-8").WriteHeader code).Write
        b).body = w.body ++ b ∧
    (w.status = none →
      (((w.setHeader "Content-Type" "application/json; charset=utf-8").WriteHeader code).Write
        b).status = some code) := by
  refine ⟨rfl, ?_, rfl, fun hw => ?_⟩
  · simp [ResponseWriter.getHeader, ResponseWriter.Write, ResponseWriter.WriteHeader,
      ResponseWriter.setHeader, List.lookup]
  · simp [ResponseWriter.Write, ResponseWriter.WriteHeader, ResponseWriter.setHeader, hw]

/-- C1: for every non-nil error, `encodeError` returns and calls `WriteHeader`
exactly once: with 404 when the error is `shipping.ErrUnknownCargo`, with 400
when it is `ErrInvalidArgument` (the two are distinct values), with 500 for
every other error; on a writer that has sent no status yet that code is the
status sent. -/
theorem encodeError_status_code (e : ErrVal) (w : ResponseWriter) :
    ErrUnknownCargo ≠ ErrInvalidArgument ∧
    (e = ErrUnknownCargo →
      (encodeError (some e) w).map ResponseWriter.calls = some (w.calls ++ [404]) ∧
      (w.status = none → (encodeError (some e) w).bind ResponseWriter.status = some 404)) ∧
    (e = ErrInvalidArgument →
      (encodeError (some e) w).map ResponseWriter.calls = some (w.calls ++ [400]) ∧
      (w.status = none → (encodeError (some e) w).bind ResponseWriter.status = some 400)) ∧
    (e ≠ ErrUnknownCargo → e ≠ ErrInvalidArgument →
      (encodeError (some e) w).map ResponseWriter.calls = some (w.calls ++ [500]) ∧
      (w.status = none → (encodeError (some e) w).bind ResponseWriter.status = some 500)) := by
  have hne : ErrInvalidArgument ≠ ErrUnknownCargo := by decide
  refine ⟨by decide, ?_, ?_, ?_⟩
  · rintro rfl
    rw [encodeError_some]
    exact ⟨by simp [(writer_after _ _ _).1], fun hw => by simp [(writer_after _ _ _).2.2.2 hw]⟩
  · rintro rfl
    rw [encodeError_some]
    exact ⟨by simp [(writer_after _ _ _).1, hne],
      fun hw => by simp [(writer_after _ _ _).2.2.2 hw, hne]⟩
  · intro h1 h2
    rw [encodeError_some]
    exact ⟨by simp [(writer_after _ _ _).1, h1, h2],
      fun hw => by simp [(writer_after _ _ _).2.2.2 hw, h1, h2]⟩

/-- Witness of C1 at the unknown-cargo error and a fresh writer. -/
theorem encodeError_status_code_witness :
    (encodeError (some ErrUnknownCargo) ResponseWriter.fresh).map ResponseWriter.calls
        = some (ResponseWriter.fresh.calls ++ [404]) ∧
    (encodeError (some ErrUnknownCargo) ResponseWriter.fresh).bind ResponseWriter.status
        = some 404 :=
  ⟨((encodeError_status_code ErrUnknownCargo ResponseWriter.fresh).2.1 rfl).1,
   ((encodeError_status_code ErrUnknownCargo ResponseWriter.fresh).2.1 rfl).2 rfl⟩

/-- C3, as the claim states it, fails at the nil error: `encodeError` does not
complete there (the call `err.Error()` on a nil interface panics). -/
theorem encodeError_nil_panics :
    ¬ ∃ w1, encodeError none ResponseWriter.fresh = some w1 := by
  simp [encodeError]

/-- C3, amended: for every non-nil error and every writer `encodeError`
completes; it calls `WriteHeader` once with a code among 400, 404 and 500,
sets `Content-Type` to `application/json; charset=utf-8`, and appends to the
body the object whose key `error` holds the error's message. -/
theorem encodeError_total (e : ErrVal) (w : ResponseWriter) :
    ∃ code w1, (code = 400 ∨ code = 404 ∨ code = 500) ∧
      encodeError (some e) w = some w1 ∧
      w1 = ((w.setHeader "Content-Type" "application/json; charset=utf-8").WriteHeader
              code).Write (encodeErrorMap e.msg) ∧
      w1.calls = w.calls ++ [code] ∧
      w1.getHeader "Content-Type" = some "application/json; charset=utf-8" ∧
      w1.body = w.body ++ ("\x7b\"error\":" ++ jsonString e.msg ++ "\x7d\n") := by
  refine ⟨_, _, ?_, encodeError_some e w, rfl, (writer_after _ _ _).1,
    (writer_after _ _ _).2.1, (writer_after _ _ _).2.2.1⟩
  by_cases h1 : e = ErrUnknownCargo
  · rw [if_pos h1]; exact Or.inr (Or.inl rfl)
  · rw [if_neg h1]
    by_cases h2 : e = ErrInvalidArgument
    · rw [if_pos h2]; exact Or.inl rfl
    · rw [if_neg h2]; exact Or.inr (Or.inr rfl)

/-! ## Theorems: the response encoder -/

/-- C2: for a response that implements `errorer` and whose `error()` is a
non-nil `e`, `encodeResponse` does exactly what `encodeError` does for `e` and
returns nil: the bytes appended to the body are the error object alone,
whatever the response marshals to, and for `shipping.ErrUnknownCargo` on a
writer that has sent no status the status is 404. -/
theorem encodeResponse_delegates (resp : Response) (e : ErrVal) (w : ResponseWriter)
    (h : resp.errorer = some (some e)) :
    encodeResponse w resp = (encodeError (some e) w).map (fun w1 => (w1, none)) ∧
    (∃ w1, encodeError (some e) w = some w1 ∧ encodeResponse w resp = some (w1, none) ∧
      w1.getHeader "Content-Type" = some "application/json; charset=utf-8" ∧
      w1.body = w.body ++ ("\x7b\"error\":" ++ jsonString e.msg ++ "\x7d\n")) ∧
    (e = ErrUnknownCargo → w.status = none →
      (encodeResponse w resp).bind (fun p => p.1.status) = some 404) := by
  have h0 : encodeResponse w resp = (encodeError (some e) w).map (fun w1 => (w1, none)) := by
    simp [encodeResponse, h]
  refine ⟨h0, ⟨_, encodeError_some e w, ?_, (writer_after _ _ _).2.1,
    (writer_after _ _ _).2.2.1⟩, ?_⟩
  · rw [h0, encodeError_some]; rfl
  · rintro rfl hw
    rw [h0, encodeError_some]
    simp [(writer_after _ _ _).2.2.2 hw]

/-- Witness of C2: a response whose type satisfies `errorer` and whose `error()`
returns the unknown-cargo error, on a fresh writer; the JSON the response
itself marshals to is not what is written. -/
theorem encodeResponse_delegates_witness :
    (encodeResponse ResponseWriter.fresh
        ⟨some (some ErrUnknownCargo), .ok "\x7b\"error\":\x7b\x7d\x7d"⟩).bind
      (fun p => p.1.status) = some 404 :=
  (encodeResponse_delegates ⟨some (some ErrUnknownCargo), .ok "\x7b\"error\":\x7b\x7d\x7d"⟩
    ErrUnknownCargo ResponseWriter.fresh rfl).2.2 rfl rfl

/-- C6: for a response that does not implement `errorer`, or whose `error()` is
nil, `encodeResponse` sets `Content-Type`, never calls `WriteHeader`, and
returns what the JSON encoder returns: when the value marshals to `s` the body
gains `s` and a newline, the status is the implicit 200 on a writer that had
sent none, and nil is returned; when marshalling fails nothing is written and
the error is returned. The envelope `registerIncidentResponse{Err: nil}` gives
the body `{}`, in which the key `error` does not occur; being a type of package
handling it does not implement booking's `errorer`. -/
theorem encodeResponse_success (resp : Response) (w : ResponseWriter)
    (h : resp.errorer = none ∨ resp.errorer = some none) :
    encodeResponse w resp =
      some (jsonEncode (w.setHeader "Content-Type" "application/json; charset=utf-8")
        resp.marshal) ∧
    (∀ s, resp.marshal = .ok s →
      encodeResponse w resp =
        some (⟨("Content-Type", "application/json; charset=utf-8") ::
                w.header.filter (fun kv => kv.1 ≠ "Content-Type"),
               w.calls, some (w.status.getD 200), w.body ++ (s ++ "\n")⟩, none)) ∧
    (∀ x, resp.marshal = .error x →
      encodeResponse w resp =
        some (w.setHeader "Content-Type" "application/json; charset=utf-8", some x)) ∧
    (∀ marshalErr errorer, errorer = none ∨ errorer = some none →
      encodeResponse ResponseWriter.fresh
          ⟨errorer, (registerIncidentResponse.mk none).marshal marshalErr⟩ =
        some (⟨[("Content-Type", "application/json; charset=utf-8")], [], some 200,
               "\x7b\x7d\n"⟩, none)) ∧
    (∀ marshalErr (r : registerIncidentResponse),
      (r.toResponse marshalErr).errorer = none) ∧
    ¬ ("\"error\"".data <:+: "\x7b\x7d\n".data) := by
  have h0 : ∀ (rs : Response) (w0 : ResponseWriter),
      rs.errorer = none ∨ rs.errorer = some none →
      encodeResponse w0 rs =
        some (jsonEncode (w0.setHeader "Content-Type" "application/json; charset=utf-8")
          rs.marshal) := by
    intro rs w0 hr
    rcases hr with hr | hr <;> simp [encodeResponse, hr]
  refine ⟨h0 resp w h, ?_, ?_, ?_, fun _ _ => rfl, by decide⟩
  · intro s hs
    rw [h0 resp w h, hs]
    cases hst : w.status <;>
      simp [jsonEncode, ResponseWriter.Write, ResponseWriter.setHeader, hst]
  · intro x hx
    rw [h0 resp w h, hx]
    rfl
  · intro marshalErr errorer he
    rw [h0 _ _ he]
    rfl

/-- Witness of C6: the envelope with a nil error, on a fresh writer. -/
theorem encodeResponse_success_witness :
    encodeResponse ResponseWriter.fresh
        ((registerIncidentResponse.mk none).toResponse (fun _ => .ok "\x7b\x7d")) =
      some (⟨("Content-Type", "application/json; charset=utf-8") ::
              ResponseWriter.fresh.header.filter (fun kv => kv.1 ≠ "Content-Type"),
             ResponseWriter.fresh.calls, some (ResponseWriter.fresh.status.getD 200),
             ResponseWriter.fresh.body ++ ("\x7b\x7d" ++ "\n")⟩, none) :=
  (encodeResponse_success
    ((registerIncidentResponse.mk none).toResponse (fun _ => .ok "\x7b\x7d"))
    ResponseWriter.fresh (Or.inl rfl)).2.1 "\x7b\x7d" rfl

/-! ## Theorems: the register-incident endpoint -/

/-- C5: for every service and every `registerIncidentRequest`, the endpoint
returns `(registerIncidentResponse{Err: e}, nil)` where `e` is what the one call
`hs.RegisterHandlingEvent(req.CompletionTime, req.ID, req.Voyage, req.Location,
req.EventType)` returned, and the service is left in the state after that one
call; a service that logs its calls has logged exactly that one call, with the
arguments in that order. -/
theorem makeRegisterIncidentEndpoint_calls_once {σ τ : Type} (hs : Service σ τ)
    (req : registerIncidentRequest τ) (s : σ) :
    makeRegisterIncidentEndpoint hs (.registerIncident req) s =
      some ((registerIncidentResponse.mk
              (hs.RegisterHandlingEvent req.CompletionTime req.ID req.Voyage req.Location
                req.EventType s).1, none),
            (hs.RegisterHandlingEvent req.CompletionTime req.ID req.Voyage req.Location
              req.EventType s).2) ∧
    (∀ (answer : Call τ → GoError) (log : List (Call τ)),
      makeRegisterIncidentEndpoint (recordingService answer) (.registerIncident req) log =
        some ((registerIncidentResponse.mk
                (answer ⟨req.CompletionTime, req.ID, req.Voyage, req.Location, req.EventType⟩),
               none),
              log ++ [⟨req.CompletionTime, req.ID, req.Voyage, req.Location, req.EventType⟩])) :=
  ⟨rfl, fun _ _ => rfl⟩

/-! ## Theorems: the decoders -/

/-- C4: when the path variables hold no `id`, each of the four decoders that
read it returns `(nil, errBadRoute)`, whatever the body is and whatever the
JSON decoder would make of it; `errBadRoute` is no JSON decode error. -/
theorem decoders_bad_route_without_id {ι : Type} (r : Request)
    (h : r.vars.lookup "id" = none) :
    decodeLoadCargoRequest r = .error errBadRoute ∧
    decodeRequestRoutesRequest r = .error errBadRoute ∧
    (∀ jsonDecode : JsonDecode ι,
      decodeAssignToRouteRequest jsonDecode r = .error errBadRoute) ∧
    (∀ jsonDecode : JsonDecode changeDestinationBody,
      decodeChangeDestinationRequest jsonDecode r = .error errBadRoute) ∧
    (∀ j : JsonErr, errBadRoute ≠ j.toErr) := by
  refine ⟨?_, ?_, fun _ => ?_, fun _ => ?_, fun j hj => ?_⟩
  · simp [decodeLoadCargoRequest, h]
  · simp [decodeRequestRoutesRequest, h]
  · simp [decodeAssignToRouteRequest, h]
  · simp [decodeChangeDestinationRequest, h]
  · simp [errBadRoute, errorsNew, JsonErr.toErr] at hj

/-- Witness of C4: a request without path variables whose body is not JSON,
with a JSON decoder that rejects every body. -/
theorem decoders_bad_route_without_id_witness :
    decodeAssignToRouteRequest (fun _ => (.error ⟨0, "invalid character"⟩ : Except JsonErr Nat))
      ⟨"POST", "/booking/v1/cargos", [], "not json"⟩ = .error errBadRoute :=
  (decoders_bad_route_without_id ⟨"POST", "/booking/v1/cargos", [], "not json"⟩ rfl).2.2.1 _

/-- C8, as the claim states it, fails when `id` is bound to the empty string:
`decodeLoadCargoRequest` returns a command and no error. -/
theorem decodeLoadCargoRequest_empty_id :
    decodeLoadCargoRequest ⟨"GET", "/booking/v1/cargos/", [("id", "")], ""⟩ =
      .ok ⟨TrackingID.mk ""⟩ ∧
    decodeLoadCargoRequest ⟨"GET", "/booking/v1/cargos/", [("id", "")], ""⟩ ≠
      .error errBadRoute := by
  refine ⟨rfl, fun h => ?_⟩
  simp [decodeLoadCargoRequest, List.lookup] at h

/-- C8, amended: when the path variable `id` is absent, each of the four
decoders fails with `errBadRoute` and returns no command; when `id` is bound to
the empty string none of them fails with `errBadRoute`: the two body-less
decoders return a command whose ID is empty, and the other two go on to the
body. -/
theorem decoders_check_presence_only {ι : Type} (r : Request) :
    (r.vars.lookup "id" = none →
      decodeLoadCargoRequest r = .error errBadRoute ∧
      decodeRequestRoutesRequest r = .error errBadRoute ∧
      (∀ jsonDecode : JsonDecode ι,
        decodeAssignToRouteRequest jsonDecode r = .error errBadRoute) ∧
      (∀ jsonDecode : JsonDecode changeDestinationBody,
        decodeChangeDestinationRequest jsonDecode r = .error errBadRoute)) ∧
    (r.vars.lookup "id" = some "" →
      decodeLoadCargoRequest r = .ok ⟨TrackingID.mk ""⟩ ∧
      decodeRequestRoutesRequest r = .ok ⟨TrackingID.mk ""⟩ ∧
      (∀ jsonDecode : JsonDecode ι,
        decodeAssignToRouteRequest jsonDecode r ≠ .error errBadRoute) ∧
      (∀ jsonDecode : JsonDecode changeDestinationBody,
        decodeChangeDestinationRequest jsonDecode r ≠ .error errBadRoute)) := by
  constructor
  · intro h
    refine ⟨?_, ?_, fun _ => ?_, fun _ => ?_⟩
    · simp [decodeLoadCargoRequest, h]
    · simp [decodeRequestRoutesRequest, h]
    · simp [decodeAssignToRouteRequest, h]
    · simp [decodeChangeDestinationRequest, h]
  · intro h
    refine ⟨?_, ?_, fun dec => ?_, fun dec => ?_⟩
    · simp [decodeLoadCargoRequest, h]
    · simp [decodeRequestRoutesRequest, h]
    · cases hd : dec r.Body <;>
        simp [decodeAssignToRouteRequest, h, hd, errBadRoute, errorsNew, JsonErr.toErr]
    · cases hd : dec r.Body <;>
        simp [decodeChangeDestinationRequest, h, hd, errBadRoute, errorsNew, JsonErr.toErr]

/-- Witness of C8 amended: one request without `id`, one with `id` bound to the
empty string. -/
theorem decoders_check_presence_only_witness :
    decodeRequestRoutesRequest ⟨"GET", "/booking/v1/cargos", [], ""⟩ = .error errBadRoute ∧
    decodeRequestRoutesRequest ⟨"GET", "/booking/v1/cargos", [("id", "")], ""⟩ =
      .ok ⟨TrackingID.mk ""⟩ :=
  ⟨((decoders_check_presence_only (ι := Nat) ⟨"GET", "/booking/v1/cargos", [], ""⟩).1 rfl).2.1,
   ((decoders_check_presence_only (ι := Nat)
      ⟨"GET", "/booking/v1/cargos", [("id", "")], ""⟩).2 rfl).2.1⟩

/-- C9: when the path variables bind `id` to a string `s`, the load-cargo and
request-routes decoders return the command whose ID is the tracking id built
from `s` itself, and no error: any string is accepted as it is. -/
theorem decode_id_unchanged (r : Request) (s : String)
    (h : r.vars.lookup "id" = some s) :
    decodeLoadCargoRequest r = .ok ⟨TrackingID.mk s⟩ ∧
    decodeRequestRoutesRequest r = .ok ⟨TrackingID.mk s⟩ ∧
    (TrackingID.mk s).val = s := by
  refine ⟨?_, ?_, rfl⟩
  · simp [decodeLoadCargoRequest, h]
  · simp [decodeRequestRoutesRequest, h]

/-- Witness of C9: an id that is no well-formed tracking id is taken as it is. -/
theorem decode_id_unchanged_witness :
    decodeLoadCargoRequest ⟨"GET", "/booking/v1/cargos/%20?", [("id", " ?")], ""⟩ =
      .ok ⟨TrackingID.mk " ?"⟩ :=
  (decode_id_unchanged ⟨"GET", "/booking/v1/cargos/%20?", [("id", " ?")], ""⟩ " ?" rfl).1

/-- Every error a booking decoder returns is `errBadRoute` or a JSON decode
error. -/
theorem Op.decode_error {τ ι : Type} (js : JsonDecoders τ ι) (op : Op) (r : Request)
    (e : ErrVal) (h : op.decode js r = .error e) :
    e = errBadRoute ∨ ∃ j : JsonErr, e = j.toErr := by
  cases op <;> simp only [Op.decode] at h
  · cases hd : js.bookCargo r.Body <;>
      simp [decodeBookCargoRequest, hd, Except.map] at h
    exact Or.inr ⟨_, h.symm⟩
  · cases hv : r.vars.lookup "id" <;>
      simp [decodeLoadCargoRequest, hv, Except.map] at h
    exact Or.inl h.symm
  · cases hv : r.vars.lookup "id" <;>
      simp [decodeRequestRoutesRequest, hv, Except.map] at h
    exact Or.inl h.symm
  · cases hv : r.vars.lookup "id"
    · simp [decodeAssignToRouteRequest, hv, Except.map] at h
      exact Or.inl h.symm
    · cases hd : js.itinerary r.Body <;>
        simp [decodeAssignToRouteRequest, hv, hd, Except.map] at h
      exact Or.inr ⟨_, h.symm⟩
  · cases hv : r.vars.lookup "id"
    · simp [decodeChangeDestinationRequest, hv, Except.map] at h
      exact Or.inl h.symm
    · cases hd : js.changeDestination r.Body <;>
        simp [decodeChangeDestinationRequest, hv, hd, Except.map] at h
      exact Or.inr ⟨_, h.symm⟩
  · simp [decodeListCargosRequest, Except.map] at h
  · simp [decodeListLocationsRequest, Except.map] at h

/-- C7: every error a booking decoder returns is rendered with status 500.
Such an error is `errBadRoute` or a JSON decode error handed on as it is; it
is neither `shipping.ErrUnknownCargo` nor `ErrInvalidArgument`, and a JSON
decode error is not `errBadRoute`; so `encodeError` calls `WriteHeader(500)` and
writes the object whose key `error` holds the message. For `errBadRoute` on a
fresh writer the body is `{"error":"bad route"}` and a newline. -/
theorem decoder_errors_render_500 {τ ι : Type} (js : JsonDecoders τ ι) (op : Op)
    (r : Request) (e : ErrVal) (w : ResponseWriter) (h : op.decode js r = .error e) :
    e ≠ ErrUnknownCargo ∧ e ≠ ErrInvalidArgument ∧
    (e = errBadRoute ∨ ∃ j : JsonErr, e = j.toErr ∧ e ≠ errBadRoute) ∧
    encodeError (some e) w =
      some (((w.setHeader "Content-Type" "application/json; charset=utf-8").WriteHeader
        500).Write ("\x7b\"error\":" ++ jsonString e.msg ++ "\x7d\n")) ∧
    (∀ j, js.bookCargo r.Body = .error j →
      decodeBookCargoRequest js.bookCargo r = .error j.toErr) ∧
    (∀ id j, r.vars.lookup "id" = some id → js.itinerary r.Body = .error j →
      decodeAssignToRouteRequest js.itinerary r = .error j.toErr) ∧
    (∀ id j, r.vars.lookup "id" = some id → js.changeDestination r.Body = .error j →
      decodeChangeDestinationRequest js.changeDestination r = .error j.toErr) ∧
    encodeError (some errBadRoute) ResponseWriter.fresh =
      some ⟨[("Content-Type", "application/json; charset=utf-8")], [500], some 500,
        "\x7b\"error\":\"bad route\"\x7d\n"⟩ := by
  have hbad1 : errBadRoute ≠ ErrUnknownCargo := by decide
  have hbad2 : errBadRoute ≠ ErrInvalidArgument := by decide
  have hj : ∀ j : JsonErr, j.toErr ≠ ErrUnknownCargo ∧ j.toErr ≠ ErrInvalidArgument ∧
      j.toErr ≠ errBadRoute := by
    intro j
    refine ⟨?_, ?_, ?_⟩ <;>
      simp [JsonErr.toErr, ErrUnknownCargo, ErrInvalidArgument, errBadRoute, errorsNew]
  have h1 : e ≠ ErrUnknownCargo := by
    rcases Op.decode_error js op r e h with rfl | ⟨j, rfl⟩
    · exact hbad1
    · exact (hj j).1
  have h2 : e ≠ ErrInvalidArgument := by
    rcases Op.decode_error js op r e h with rfl | ⟨j, rfl⟩
    · exact hbad2
    · exact (hj j).2.1
  refine ⟨h1, h2, ?_, ?_, ?_, ?_, ?_, by decide⟩
  · rcases Op.decode_error js op r e h with rfl | ⟨j, rfl⟩
    · exact Or.inl rfl
    · exact Or.inr ⟨j, rfl, (hj j).2.2⟩
  · rw [encodeError_some, if_neg h1, if_neg h2]
    rfl
  · intro j hd
    simp [decodeBookCargoRequest, hd]
  · intro id j hv hd
    simp [decodeAssignToRouteRequest, hv, hd]
  · intro id j hv hd
    simp [decodeChangeDestinationRequest, hv, hd]

/-- Witness of C7: the load-cargo decoder on a request without path variables
fails with `errBadRoute`, which is rendered with status 500. -/
theorem decoder_errors_render_500_witness :
    encodeError (some errBadRoute) ResponseWriter.fresh =
      some (((ResponseWriter.fresh.setHeader "Content-Type"
        "application/json; charset=utf-8").WriteHeader 500).Write
          ("\x7b\"error\":" ++ jsonString errBadRoute.msg ++ "\x7d\n")) :=
  (decoder_errors_render_500 (τ := Nat) (ι := Nat)
    ⟨fun _ => .error ⟨0, "EOF"⟩, fun _ => .error ⟨0, "EOF"⟩, fun _ => .error ⟨0, "EOF"⟩⟩
    Op.loadCargo ⟨"GET", "/booking/v1/cargos", [], ""⟩ errBadRoute ResponseWriter.fresh
    rfl).2.2.2.1

/-! ## Theorems: the route table -/

theorem parseTemplate_cargos :
    parseTemplate "/booking/v1/cargos" =
      [.lit [], .lit "booking".data, .lit "v1".data, .lit "cargos".data] := by decide

theorem parseTemplate_cargo :
    parseTemplate "/booking/v1/cargos/\x7bid\x7d" =
      [.lit [], .lit "booking".data, .lit "v1".data, .lit "cargos".data, .var "id"] := by
  decide

theorem parseTemplate_request_routes :
    parseTemplate "/booking/v1/cargos/\x7bid\x7d/request_routes" =
      [.lit [], .lit "booking".data, .lit "v1".data, .lit "cargos".data, .var "id",
        .lit "request_routes".data] := by decide

theorem parseTemplate_assign_to_route :
    parseTemplate "/booking/v1/cargos/\x7bid\x7d/assign_to_route" =
      [.lit [], .lit "booking".data, .lit "v1".data, .lit "cargos".data, .var "id",
        .lit "assign_to_route".data] := by decide

theorem parseTemplate_change_destination :
    parseTemplate "/booking/v1/cargos/\x7bid\x7d/change_destination" =
      [.lit [], .lit "booking".data, .lit "v1".data, .lit "cargos".data, .var "id",
        .lit "change_destination".data] := by decide

theorem parseTemplate_locations :
    parseTemplate "/booking/v1/locations" =
      [.lit [], .lit "booking".data, .lit "v1".data, .lit "locations".data] := by decide

theorem parseTemplate_docs :
    parseTemplate "/booking/v1/docs" =
      [.lit [], .lit "booking".data, .lit "v1".data, .lit "docs".data] := by decide

/-- A template matches only a path with as many segments as it has. -/
theorem matchSegs_length (ts : List Seg) :
    ∀ (ps : List (List Char)) (vs : List (String × String)),
      matchSegs ts ps = some vs → ps.length = ts.length := by
  induction ts with
  | nil =>
    intro ps vs h
    cases ps with
    | nil => rfl
    | cons p ps => simp [matchSegs] at h
  | cons t ts ih =>
    intro ps vs h
    cases ps with
    | nil => cases t <;> simp [matchSegs] at h
    | cons p ps =>
      cases t with
      | lit s =>
        by_cases hs : s = p
        · simp only [matchSegs, if_pos hs] at h
          simp [ih ps vs h]
        · simp [matchSegs, hs] at h
      | var name =>
        by_cases hp : p ≠ []
        · simp only [matchSegs, if_pos hp] at h
          cases hm : matchSegs ts ps with
          | none => simp [hm] at h
          | some ws => simp [ih ps ws hm]
        · simp [matchSegs, hp] at h

/-- Two templates that match the same segments are compatible. -/
theorem segsCompat_of_match (ts1 : List Seg) :
    ∀ (ts2 : List Seg) (ps : List (List Char)) (v1 v2 : List (String × String)),
      matchSegs ts1 ps = some v1 → matchSegs ts2 ps = some v2 →
      segsCompat ts1 ts2 = true := by
  induction ts1 with
  | nil =>
    intro ts2 ps v1 v2 h1 h2
    cases ps with
    | nil =>
      cases ts2 with
      | nil => rfl
      | cons t ts => cases t <;> simp [matchSegs] at h2
    | cons p ps => simp [matchSegs] at h1
  | cons t1 ts1 ih =>
    intro ts2 ps v1 v2 h1 h2
    cases ps with
    | nil => cases t1 <;> simp [matchSegs] at h1
    | cons p ps =>
      cases ts2 with
      | nil => simp [matchSegs] at h2
      | cons t2 ts2 =>
        have tail1 : ∃ w1, matchSegs ts1 ps = some w1 := by
          cases t1 with
          | lit s =>
            by_cases hs : s = p
            · simp only [matchSegs, if_pos hs] at h1
              exact ⟨v1, h1⟩
            · simp [matchSegs, hs] at h1
          | var name =>
            cases hm : matchSegs ts1 ps with
            | none => simp [matchSegs, hm] at h1
            | some w => exact ⟨w, rfl⟩
        have tail2 : ∃ w2, matchSegs ts2 ps = some w2 := by
          cases t2 with
          | lit s =>
            by_cases hs : s = p
            · simp only [matchSegs, if_pos hs] at h2
              exact ⟨v2, h2⟩
            · simp [matchSegs, hs] at h2
          | var name =>
            cases hm : matchSegs ts2 ps with
            | none => simp [matchSegs, hm] at h2
            | some w => exact ⟨w, rfl⟩
        obtain ⟨w1, hw1⟩ := tail1
        obtain ⟨w2, hw2⟩ := tail2
        have hrest := ih ts2 ps w1 w2 hw1 hw2
        have hhead : t1.agree t2 = true := by
          cases t1 with
          | var n1 => cases t2 <;> rfl
          | lit s1 =>
            cases t2 with
            | var n2 => rfl
            | lit s2 =>
              have e1 : s1 = p := by
                by_contra hs
                simp [matchSegs, hs] at h1
              have e2 : s2 = p := by
                by_contra hs
                simp [matchSegs, hs] at h2
              simp [Seg.agree, e1, e2]
        simp [segsCompat, hhead, hrest]

/-- Two method matchers that accept the same method are compatible. -/
theorem methodsCompat_of_accept (method : String) (m1 m2 : List String)
    (a1 : m1 = [] ∨ method ∈ m1) (a2 : m2 = [] ∨ method ∈ m2) :
    methodsCompat m1 m2 = true := by
  rcases a1 with a1 | a1
  · simp [methodsCompat, a1]
  · rcases a2 with a2 | a2
    · simp [methodsCompat, a2]
    · simp only [methodsCompat, Bool.or_eq_true, List.any_eq_true]
      exact Or.inr ⟨method, a1, by simpa using a2⟩

/-- Two routes that match the same request overlap. -/
theorem overlaps_of_match (r1 r2 : Route) (method path : String)
    (v1 v2 : List (String × String))
    (h1 : r1.Match method path = some v1) (h2 : r2.Match method path = some v2) :
    r1.overlaps r2 = true := by
  unfold Route.Match at h1 h2
  by_cases a1 : r1.methods = [] ∨ method ∈ r1.methods
  · by_cases a2 : r2.methods = [] ∨ method ∈ r2.methods
    · rw [if_pos a1] at h1
      rw [if_pos a2] at h2
      simp [Route.overlaps, methodsCompat_of_accept method _ _ a1 a2,
        segsCompat_of_match _ _ _ _ _ h1 h2]
    · rw [if_neg a2] at h2
      cases h2
  · rw [if_neg a1] at h1
    cases h1

/-- No two different routes of `MakeHandler` overlap. -/
theorem MakeHandler_no_overlap :
    ∀ r1 ∈ MakeHandler, ∀ r2 ∈ MakeHandler, r1.overlaps r2 = true → r1 = r2 := by
  decide

theorem splitSlash_ne_nil (s : List Char) : splitSlash s ≠ [] := by
  cases s with
  | nil => simp [splitSlash]
  | cons c cs =>
    by_cases hc : c = '/'
    · simp [splitSlash, hc]
    · simp [splitSlash, hc]

/-- Cutting at the slashes distributes over a slash. -/
theorem splitSlash_append_slash (a x : List Char) :
    splitSlash (a ++ '/' :: x) = splitSlash a ++ splitSlash x := by
  induction a with
  | nil => simp [splitSlash]
  | cons c cs ih =>
    by_cases hc : c = '/'
    · simp [splitSlash, hc, ih]
    · have hne := splitSlash_ne_nil cs
      cases hsp : splitSlash cs with
      | nil => exact absurd hsp hne
      | cons h t => simp [splitSlash, hc, ih, hsp]

/-- A string without a slash is one segment. -/
theorem splitSlash_noslash (s : List Char) (h : '/' ∉ s) : splitSlash s = [s] := by
  induction s with
  | nil => rfl
  | cons c cs ih =>
    have hc : c ≠ '/' := fun e => h (by simp [e])
    have hcs : '/' ∉ cs := fun e => h (by simp [e])
    simp [splitSlash, hc, ih hcs]

/-- No segment holds a slash. -/
theorem splitSlash_segments (s : List Char) : ∀ seg ∈ splitSlash s, '/' ∉ seg := by
  induction s with
  | nil => simp [splitSlash]
  | cons c cs ih =>
    by_cases hc : c = '/'
    · intro seg hseg
      simp only [splitSlash, hc, if_true, List.mem_cons] at hseg
      rcases hseg with rfl | hseg
      · simp
      · exact ih seg hseg
    · have hne := splitSlash_ne_nil cs
      cases hsp : splitSlash cs with
      | nil => exact absurd hsp hne
      | cons h t =>
        rw [hsp] at ih
        intro seg hseg
        simp only [splitSlash, hc, if_false, hsp, List.headD_cons, List.tail_cons,
          List.mem_cons] at hseg
        rcases hseg with rfl | hseg
        · intro hmem
          rcases List.mem_cons.mp hmem with e | e
          · exact hc e.symm
          · exact ih h (by simp) e
        · exact ih seg (by simp [hseg])

/-- Every value a template binds is one of the path's segments, and not empty. -/
theorem matchSegs_values (ts : List Seg) :
    ∀ (ps : List (List Char)) (vs : List (String × String)),
      matchSegs ts ps = some vs → ∀ v ∈ vs, v.2.data ∈ ps ∧ v.2.data ≠ [] := by
  induction ts with
  | nil =>
    intro ps vs h
    cases ps with
    | nil =>
      simp only [matchSegs, Option.some.injEq] at h
      subst h
      simp
    | cons p ps => simp [matchSegs] at h
  | cons t ts ih =>
    intro ps vs h
    cases ps with
    | nil => cases t <;> simp [matchSegs] at h
    | cons p ps =>
      cases t with
      | lit s =>
        by_cases hs : s = p
        · simp only [matchSegs, if_pos hs] at h
          intro v hv
          exact ⟨List.mem_cons_of_mem _ (ih ps vs h v hv).1, (ih ps vs h v hv).2⟩
        · simp [matchSegs, hs] at h
      | var name =>
        by_cases hp : p ≠ []
        · simp only [matchSegs, if_pos hp] at h
          cases hm : matchSegs ts ps with
          | none => simp [hm] at h
          | some ws =>
            simp only [hm, Option.map_some', Option.some.injEq] at h
            subst h
            intro v hv
            rcases List.mem_cons.mp hv with rfl | hv
            · exact ⟨by simp, hp⟩
            · exact ⟨List.mem_cons_of_mem _ (ih ps ws hm v hv).1, (ih ps ws hm v hv).2⟩
        · simp [matchSegs, hp] at h

/-- The segments of `/booking/v1/cargos/<id>`. -/
theorem splitSlash_cargo (id : String) (h : '/' ∉ id.data) :
    splitSlash ("/booking/v1/cargos/" ++ id).data =
      [[], "booking".data, "v1".data, "cargos".data, id.data] := by
  have e : ("/booking/v1/cargos/" ++ id).data = "/booking/v1/cargos".data ++ '/' :: id.data := by
    rw [String.data_append]
    rfl
  rw [e, splitSlash_append_slash, splitSlash_noslash _ h]
  rfl

/-- The segments of `/booking/v1/cargos/<id>/<last>`. -/
theorem splitSlash_cargo_sub (id last : String) (h : '/' ∉ id.data)
    (hl : '/' ∉ last.data) :
    splitSlash ("/booking/v1/cargos/" ++ id ++ ("/" ++ last)).data =
      [[], "booking".data, "v1".data, "cargos".data, id.data, last.data] := by
  have e : ("/booking/v1/cargos/" ++ id ++ ("/" ++ last)).data =
      "/booking/v1/cargos".data ++ '/' :: (id.data ++ '/' :: last.data) := by
    simp only [String.data_append]
    rfl
  rw [e, splitSlash_append_slash, splitSlash_append_slash, splitSlash_noslash _ h,
    splitSlash_noslash _ hl]
  rfl

/-- C10: for every method and path at most one route of `MakeHandler` matches,
and whatever a matching route binds is one non-empty path segment without a
slash; each of the seven rows of the interface table is dispatched to the
server of its own operation, and on the four rows with `{id}` the variable
`id` is bound to the segment after `/booking/v1/cargos/`. -/
theorem MakeHandler_unique_match (method path : String) :
    (∀ r1 ∈ MakeHandler, ∀ r2 ∈ MakeHandler,
      (r1.Match method path).isSome → (r2.Match method path).isSome → r1 = r2) ∧
    (∀ r ∈ MakeHandler, ∀ vs, r.Match method path = some vs →
      ∀ v ∈ vs, v.2 ≠ "" ∧ '/' ∉ v.2.data ∧ v.2.data ∈ splitSlash path.data) ∧
    dispatch MakeHandler "POST" "/booking/v1/cargos" = some (.kit .bookCargo, []) ∧
    dispatch MakeHandler "GET" "/booking/v1/cargos" = some (.kit .listCargos, []) ∧
    dispatch MakeHandler "GET" "/booking/v1/locations" = some (.kit .listLocations, []) ∧
    (∀ id : String, id ≠ "" → '/' ∉ id.data →
      dispatch MakeHandler "GET" ("/booking/v1/cargos/" ++ id) =
        some (.kit .loadCargo, [("id", id)]) ∧
      dispatch MakeHandler "GET" ("/booking/v1/cargos/" ++ id ++ "/request_routes") =
        some (.kit .requestRoutes, [("id", id)]) ∧
      dispatch MakeHandler "POST" ("/booking/v1/cargos/" ++ id ++ "/assign_to_route") =
        some (.kit .assignToRoute, [("id", id)]) ∧
      dispatch MakeHandler "POST" ("/booking/v1/cargos/" ++ id ++ "/change_destination") =
        some (.kit .changeDestination, [("id", id)])) := by
  refine ⟨?_, ?_, by decide, by decide, by decide, ?_⟩
  · intro r1 h1 r2 h2 m1 m2
    obtain ⟨v1, e1⟩ := Option.isSome_iff_exists.mp m1
    obtain ⟨v2, e2⟩ := Option.isSome_iff_exists.mp m2
    exact MakeHandler_no_overlap r1 h1 r2 h2 (overlaps_of_match r1 r2 method path v1 v2 e1 e2)
  · intro r _ vs hm v hv
    unfold Route.Match at hm
    by_cases a : r.methods = [] ∨ method ∈ r.methods
    · rw [if_pos a] at hm
      obtain ⟨hmem, hne⟩ := matchSegs_values _ _ _ hm v hv
      refine ⟨fun e => hne (by rw [e]), splitSlash_segments _ _ hmem, hmem⟩
    · rw [if_neg a] at hm
      cases hm
  · intro id hid hslash
    have hne : id.data ≠ [] := fun e => hid (String.ext e)
    have c1 := splitSlash_cargo id hslash
    have c2 := splitSlash_cargo_sub id "request_routes" hslash (by decide)
    have c3 := splitSlash_cargo_sub id "assign_to_route" hslash (by decide)
    have c4 := splitSlash_cargo_sub id "change_destination" hslash (by decide)
    have p2 : "/booking/v1/cargos/" ++ id ++ "/request_routes" =
        "/booking/v1/cargos/" ++ id ++ ("/" ++ "request_routes") := rfl
    have p3 : "/booking/v1/cargos/" ++ id ++ "/assign_to_route" =
        "/booking/v1/cargos/" ++ id ++ ("/" ++ "assign_to_route") := rfl
    have p4 : "/booking/v1/cargos/" ++ id ++ "/change_destination" =
        "/booking/v1/cargos/" ++ id ++ ("/" ++ "change_destination") := rfl
    refine ⟨?_, ?_, ?_, ?_⟩
    · simp only [dispatch, MakeHandler, List.findSome?, Route.Match, c1, parseTemplate_cargos,
        parseTemplate_cargo]
      simp [matchSegs, hne]
    · rw [p2]
      simp only [dispatch, MakeHandler, List.findSome?, Route.Match, c2, parseTemplate_cargos,
        parseTemplate_cargo, parseTemplate_request_routes]
      simp [matchSegs, hne]
    · rw [p3]
      simp only [dispatch, MakeHandler, List.findSome?, Route.Match, c3, parseTemplate_cargos,
        parseTemplate_cargo, parseTemplate_request_routes, parseTemplate_assign_to_route]
      simp [matchSegs, hne]
    · rw [p4]
      simp only [dispatch, MakeHandler, List.findSome?, Route.Match, c4, parseTemplate_cargos,
        parseTemplate_cargo, parseTemplate_request_routes, parseTemplate_assign_to_route,
        parseTemplate_change_destination]
      simp [matchSegs, hne]

/-- Witness of C10: the load-cargo route is the one route matching
`GET /booking/v1/cargos/ABC123`, and the request is dispatched to it with `id`
bound to `ABC123`. -/
theorem MakeHandler_unique_match_witness :
    (⟨"/booking/v1/cargos/\x7bid\x7d", .kit .loadCargo, ["GET"]⟩ : Route) =
      ⟨"/booking/v1/cargos/\x7bid\x7d", .kit .loadCargo, ["GET"]⟩ ∧
    dispatch MakeHandler "GET" ("/booking/v1/cargos/" ++ "ABC123") =
      some (.kit .loadCargo, [("id", "ABC123")]) :=
  ⟨(MakeHandler_unique_match "GET" "/booking/v1/cargos/ABC123").1
      ⟨"/booking/v1/cargos/\x7bid\x7d", .kit .loadCargo, ["GET"]⟩ (by decide)
      ⟨"/booking/v1/cargos/\x7bid\x7d", .kit .loadCargo, ["GET"]⟩ (by decide)
      (by decide) (by decide),
   ((MakeHandler_unique_match "GET" "/booking/v1/cargos/ABC123").2.2.2.2.2
      "ABC123" (by decide) (by decide)).1⟩

end Goddd
